import Mathlib

/-!
Verification development for an in-memory fungible-token ledger.

The program keeps per-address balances, a fixed total supply, and delegated
spending allowances in two hash maps inside a single state record, and
exposes construction, two pure lookups, and three mutating operations
(transfer, approve, transfer_from) that validate their inputs and either
fail with a TokenError value or update the state.

The embedding below translates that state record and its operations:
hash maps become association lists (insert replaces the entry with the
given key), the 64-bit unsigned Balance type becomes Nat together with an
explicit bound U64_MAX and an explicit checked_add, and each mutating
operation becomes a function from the old state to a pair of the new state
and an optional error, mirroring mutation of self plus a Result return:
every early error return hands back the state as it stood at that point.
-/

/-- Largest value representable in the 64-bit Balance width. -/
def U64_MAX : Nat := 2 ^ 64 - 1

/-- Model of u64 checked addition: the sum when it fits in 64 bits, none on
overflow. -/
def checked_add (a b : Nat) : Option Nat :=
  if a + b ≤ U64_MAX then some (a + b) else none

/-- Model of map lookup (HashMap get): the value stored at the given key,
if any. -/
def mlookup {α : Type} [DecidableEq α] : List (α × Nat) → α → Option Nat
  | [], _ => none
  | (k, v) :: rest, k0 => if k = k0 then some v else mlookup rest k0

/-- Lookup defaulting to zero, the shape of get(..).copied().unwrap_or(0). -/
def mgetD {α : Type} [DecidableEq α] (m : List (α × Nat)) (k : α) : Nat :=
  (mlookup m k).getD 0

/-- Model of map insertion (HashMap insert): replace the entry holding the
given key, or add a fresh entry when the key is absent. -/
def mset {α : Type} [DecidableEq α] : List (α × Nat) → α → Nat → List (α × Nat)
  | [], k0, v0 => [(k0, v0)]
  | (k, v) :: rest, k0, v0 =>
      if k = k0 then (k0, v0) :: rest else (k, v) :: mset rest k0 v0

/-- Sum of all values stored in a map. -/
def msum {α : Type} (m : List (α × Nat)) : Nat :=
  (m.map Prod.snd).sum

/-- Addresses are plain strings in the source. -/
abbrev Address : Type := String

/-- Balances are 64-bit unsigned integers in the source, modelled as Nat
with the explicit bound U64_MAX where overflow matters. -/
abbrev Balance : Type := Nat

/-- The error taxonomy of the ledger, one constructor per source variant. -/
inductive TokenError : Type where
  | InsufficientBalance (required : Balance) (available : Balance)
  | SelfTransfer
  | ZeroAmount
  | BalanceOverFlow
  | SelfApproval
  | InsufficientAllowance (required : Balance) (available : Balance)
deriving DecidableEq, Repr

/-- The ledger state: balances, allowances keyed on (owner, spender), and
the fixed total supply. -/
structure TokenState : Type where
  balances : List (Address × Balance)
  allowances : List ((Address × Address) × Balance)
  total_supply : Balance
deriving DecidableEq, Repr

/-- Construction: a fresh ledger whose only funded address is the creator,
holding the whole initial supply. -/
def TokenState.new (creator : Address) (initial_supply : Balance) : TokenState :=
  { balances := mset [] creator initial_supply
    allowances := []
    total_supply := initial_supply }

/-- Balance lookup, zero for an absent address. -/
def TokenState.balance_of (s : TokenState) (address : Address) : Balance :=
  mgetD s.balances address

/-- Allowance lookup on the ordered (owner, spender) pair, zero when
absent. -/
def TokenState.allowance (s : TokenState) (owner spender : Address) : Balance :=
  mgetD s.allowances (owner, spender)

/-- Transfer of amount from one address to another, with the source's
validation cascade; the returned pair is the state after the call together
with the error, if any. -/
def TokenState.transfer (s : TokenState) (from_ to_ : Address) (amount : Balance) :
    TokenState × Option TokenError :=
  if from_ = to_ then (s, some TokenError.SelfTransfer)
  else if amount = 0 then (s, some TokenError.ZeroAmount)
  else
    let from_bal := s.balance_of from_
    if from_bal < amount then
      (s, some (TokenError.InsufficientBalance amount from_bal))
    else
      match checked_add (s.balance_of to_) amount with
      | none => (s, some TokenError.BalanceOverFlow)
      | some to_bal =>
          ({ s with
              balances := mset (mset s.balances from_ (from_bal - amount)) to_ to_bal },
            none)

/-- Approval: record the amount the spender may move out of the owner's
balance, rejecting only owner = spender. -/
def TokenState.approve (s : TokenState) (owner spender : Address) (amount : Balance) :
    TokenState × Option TokenError :=
  if owner = spender then (s, some TokenError.SelfApproval)
  else
    ({ s with allowances := mset s.allowances (owner, spender) amount }, none)

/-- Delegated transfer: the spender moves amount out of the from address,
gated by the (from, spender) allowance, which is decremented on success. -/
def TokenState.transfer_from (s : TokenState) (spender from_ to_ : Address)
    (amount : Balance) : TokenState × Option TokenError :=
  if from_ = to_ then (s, some TokenError.SelfTransfer)
  else if amount = 0 then (s, some TokenError.ZeroAmount)
  else
    let current_allowance := s.allowance from_ spender
    if current_allowance < amount then
      (s, some (TokenError.InsufficientAllowance amount current_allowance))
    else
      let from_bal := s.balance_of from_
      if from_bal < amount then
        (s, some (TokenError.InsufficientBalance amount from_bal))
      else
        match checked_add (s.balance_of to_) amount with
        | none => (s, some TokenError.BalanceOverFlow)
        | some to_bal =>
            ({ s with
                balances := mset (mset s.balances from_ (from_bal - amount)) to_ to_bal
                allowances :=
                  mset s.allowances (from_, spender) (current_allowance - amount) },
              none)

/-- One public mutating call, for reasoning about call sequences. -/
inductive Op : Type where
  | transfer (from_ to_ : Address) (amount : Balance)
  | approve (owner spender : Address) (amount : Balance)
  | transfer_from (spender from_ to_ : Address) (amount : Balance)

/-- The state-and-result pair produced by one call on a given state. -/
def opResult (s : TokenState) (op : Op) : TokenState × Option TokenError :=
  match op with
  | Op.transfer f t a => s.transfer f t a
  | Op.approve o sp a => s.approve o sp a
  | Op.transfer_from sp f t a => s.transfer_from sp f t a

/-- The state after one call, whether it succeeded or failed. -/
def applyOp (s : TokenState) (op : Op) : TokenState :=
  (opResult s op).1

/-- The state after a finite sequence of calls. -/
def run (s : TokenState) (ops : List Op) : TokenState :=
  ops.foldl applyOp s

/-- Every self-allowance of the state is zero. -/
def SelfAllowZero (s : TokenState) : Prop :=
  ∀ a, s.allowance a a = 0

/-! Map lemmas. -/

theorem mlookup_mset_self {α : Type} [DecidableEq α] (m : List (α × Nat)) (k : α)
    (v : Nat) : mlookup (mset m k v) k = some v := by
  induction m with
  | nil => simp [mset, mlookup]
  | cons p rest ih =>
      obtain ⟨k1, v1⟩ := p
      by_cases h : k1 = k <;> simp [mset, mlookup, h, ih]

theorem mlookup_mset_ne {α : Type} [DecidableEq α] (m : List (α × Nat))
    (k k0 : α) (v : Nat) (h : k0 ≠ k) : mlookup (mset m k v) k0 = mlookup m k0 := by
  induction m with
  | nil => simp [mset, mlookup, Ne.symm h]
  | cons p rest ih =>
      obtain ⟨k1, v1⟩ := p
      by_cases h1 : k1 = k
      · subst h1
        simp [mset, mlookup, Ne.symm h]
      · by_cases h2 : k1 = k0 <;> simp [mset, mlookup, h, h1, h2, ih]

theorem mgetD_mset_self {α : Type} [DecidableEq α] (m : List (α × Nat)) (k : α)
    (v : Nat) : mgetD (mset m k v) k = v := by
  simp [mgetD, mlookup_mset_self]

theorem mgetD_mset_ne {α : Type} [DecidableEq α] (m : List (α × Nat))
    (k k0 : α) (v : Nat) (h : k0 ≠ k) : mgetD (mset m k v) k0 = mgetD m k0 := by
  simp [mgetD, mlookup_mset_ne m k k0 v h]

theorem msum_mset {α : Type} [DecidableEq α] (m : List (α × Nat)) (k : α)
    (v : Nat) : msum (mset m k v) + mgetD m k = msum m + v := by
  induction m with
  | nil => simp [mset, msum, mgetD, mlookup]
  | cons p rest ih =>
      obtain ⟨k1, v1⟩ := p
      by_cases h : k1 = k
      · subst h
        simp [mset, msum, mgetD, mlookup]
        omega
      · simp only [mset, if_neg h, msum, List.map_cons, List.sum_cons, mgetD,
          mlookup, if_neg h]
        have := ih
        simp only [msum, mgetD] at this
        omega

theorem mgetD_le_msum {α : Type} [DecidableEq α] (m : List (α × Nat)) (k : α) :
    mgetD m k ≤ msum m := by
  induction m with
  | nil => simp [mgetD, mlookup, msum]
  | cons p rest ih =>
      obtain ⟨k1, v1⟩ := p
      by_cases h : k1 = k
      · simp [mgetD, mlookup, h, msum]
      · simp only [mgetD, mlookup, if_neg h, msum, List.map_cons, List.sum_cons]
        have := ih
        simp only [mgetD, msum] at this
        omega

theorem mgetD_pair_le_msum {α : Type} [DecidableEq α] (m : List (α × Nat))
    (k1 k2 : α) (h : k1 ≠ k2) : mgetD m k1 + mgetD m k2 ≤ msum m := by
  induction m with
  | nil => simp [mgetD, mlookup, msum]
  | cons p rest ih =>
      obtain ⟨ka, va⟩ := p
      have hk1 := mgetD_le_msum rest k1
      have hk2 := mgetD_le_msum rest k2
      simp only [mgetD, msum, mlookup, List.map_cons, List.sum_cons]
        at ih hk1 hk2 ⊢
      by_cases e1 : ka = k1
      · rw [if_pos e1, if_neg (fun hh => h (e1.symm.trans hh))]
        simp only [Option.getD_some]
        omega
      · by_cases e2 : ka = k2
        · rw [if_neg e1, if_pos e2]
          simp only [Option.getD_some]
          omega
        · rw [if_neg e1, if_neg e2]
          omega

/-! Characterizations of the three mutating operations as explicit
validation cascades. -/

theorem transfer_eq (s : TokenState) (f t : Address) (a : Balance) :
    s.transfer f t a =
      if f = t then (s, some TokenError.SelfTransfer)
      else if a = 0 then (s, some TokenError.ZeroAmount)
      else if s.balance_of f < a then
        (s, some (TokenError.InsufficientBalance a (s.balance_of f)))
      else if U64_MAX < s.balance_of t + a then
        (s, some TokenError.BalanceOverFlow)
      else
        ({ s with
            balances :=
              mset (mset s.balances f (s.balance_of f - a)) t (s.balance_of t + a) },
          none) := by
  unfold TokenState.transfer checked_add
  by_cases h1 : f = t
  · simp [h1]
  · by_cases h2 : a = 0
    · simp [h1, h2]
    · by_cases h3 : s.balance_of f < a
      · simp [h1, h2, h3]
      · by_cases h4 : U64_MAX < s.balance_of t + a
        · simp [h1, h2, h3, h4, Nat.not_le.mpr h4]
        · simp [h1, h2, h3, h4, Nat.not_lt.mp h4]

theorem transfer_from_eq (s : TokenState) (sp f t : Address) (a : Balance) :
    s.transfer_from sp f t a =
      if f = t then (s, some TokenError.SelfTransfer)
      else if a = 0 then (s, some TokenError.ZeroAmount)
      else if s.allowance f sp < a then
        (s, some (TokenError.InsufficientAllowance a (s.allowance f sp)))
      else if s.balance_of f < a then
        (s, some (TokenError.InsufficientBalance a (s.balance_of f)))
      else if U64_MAX < s.balance_of t + a then
        (s, some TokenError.BalanceOverFlow)
      else
        ({ s with
            balances :=
              mset (mset s.balances f (s.balance_of f - a)) t (s.balance_of t + a)
            allowances :=
              mset s.allowances (f, sp) (s.allowance f sp - a) },
          none) := by
  unfold TokenState.transfer_from checked_add
  by_cases h1 : f = t
  · simp [h1]
  · by_cases h2 : a = 0
    · simp [h1, h2]
    · by_cases h3 : s.allowance f sp < a
      · simp [h1, h2, h3]
      · by_cases h4 : s.balance_of f < a
        · simp [h1, h2, h3, h4]
        · by_cases h5 : U64_MAX < s.balance_of t + a
          · simp [h1, h2, h3, h4, h5, Nat.not_le.mpr h5]
          · simp [h1, h2, h3, h4, h5, Nat.not_lt.mp h5]

theorem approve_eq (s : TokenState) (o sp : Address) (a : Balance) :
    s.approve o sp a =
      if o = sp then (s, some TokenError.SelfApproval)
      else ({ s with allowances := mset s.allowances (o, sp) a }, none) :=
  rfl

/-! Helper lemmas about single calls and call sequences. -/

theorem msum_double_mset (b : List (Address × Nat)) (f t : Address) (a : Nat)
    (hft : f ≠ t) (ha : a ≤ mgetD b f) :
    msum (mset (mset b f (mgetD b f - a)) t (mgetD b t + a)) = msum b := by
  have e1 := msum_mset b f (mgetD b f - a)
  have e2 := msum_mset (mset b f (mgetD b f - a)) t (mgetD b t + a)
  have e3 : mgetD (mset b f (mgetD b f - a)) t = mgetD b t :=
    mgetD_mset_ne b f t (mgetD b f - a) (Ne.symm hft)
  have e4 := mgetD_le_msum b f
  omega

theorem applyOp_msum (s : TokenState) (op : Op) :
    msum (applyOp s op).balances = msum s.balances
    ∧ (applyOp s op).total_supply = s.total_supply := by
  cases op with
  | transfer f t a =>
      simp only [applyOp, opResult]
      rw [transfer_eq]
      by_cases h1 : f = t
      · simp [h1]
      by_cases h2 : a = 0
      · simp [h1, h2]
      by_cases h3 : s.balance_of f < a
      · simp [h1, h2, h3]
      by_cases h4 : U64_MAX < s.balance_of t + a
      · simp [h1, h2, h3, h4]
      · simp only [if_neg h1, if_neg h2, if_neg h3, if_neg h4]
        exact ⟨msum_double_mset s.balances f t a h1 (Nat.not_lt.mp h3), by trivial⟩
  | approve o sp a =>
      simp only [applyOp, opResult]
      rw [approve_eq]
      by_cases h1 : o = sp <;> simp [h1]
  | transfer_from sp f t a =>
      simp only [applyOp, opResult]
      rw [transfer_from_eq]
      by_cases h1 : f = t
      · simp [h1]
      by_cases h2 : a = 0
      · simp [h1, h2]
      by_cases h3 : s.allowance f sp < a
      · simp [h1, h2, h3]
      by_cases h4 : s.balance_of f < a
      · simp [h1, h2, h3, h4]
      by_cases h5 : U64_MAX < s.balance_of t + a
      · simp [h1, h2, h3, h4, h5]
      · simp only [if_neg h1, if_neg h2, if_neg h3, if_neg h4, if_neg h5]
        exact ⟨msum_double_mset s.balances f t a h1 (Nat.not_lt.mp h4), by trivial⟩

theorem run_msum (s : TokenState) (ops : List Op) :
    msum (run s ops).balances = msum s.balances
    ∧ (run s ops).total_supply = s.total_supply := by
  induction ops generalizing s with
  | nil => exact ⟨rfl, rfl⟩
  | cons op rest ih =>
      have h1 := applyOp_msum s op
      have h2 := ih (applyOp s op)
      simp only [run, List.foldl_cons] at h2 ⊢
      exact ⟨h2.1.trans h1.1, h2.2.trans h1.2⟩

theorem msum_new (c : Address) (i : Balance) :
    msum (TokenState.new c i).balances = i := by
  simp [TokenState.new, mset, msum]

theorem opResult_cases (s : TokenState) (op : Op) :
    (opResult s op).2 = none ∨ (opResult s op).1 = s := by
  cases op with
  | transfer f t a =>
      simp only [opResult]
      rw [transfer_eq]
      repeat' split
      all_goals simp
  | approve o sp a =>
      simp only [opResult]
      rw [approve_eq]
      repeat' split
      all_goals simp
  | transfer_from sp f t a =>
      simp only [opResult]
      rw [transfer_from_eq]
      repeat' split
      all_goals simp

/-! Claim theorems. -/

/-- Claim C1: for every ledger created by new and every finite sequence of
transfer, approve and transfer_from calls (successful or failing), the sum
of all entries of the balances map equals total_supply after every call,
and total_supply always returns the initial supply. -/
theorem conservation_of_supply (creator : Address) (initial_supply : Balance)
    (ops : List Op) :
    msum (run (TokenState.new creator initial_supply) ops).balances
      = (run (TokenState.new creator initial_supply) ops).total_supply
    ∧ (run (TokenState.new creator initial_supply) ops).total_supply
      = initial_supply := by
  obtain ⟨h1, h2⟩ := run_msum (TokenState.new creator initial_supply) ops
  have hb := msum_new creator initial_supply
  have ht : (TokenState.new creator initial_supply).total_supply
      = initial_supply := rfl
  exact ⟨(h1.trans hb).trans (h2.trans ht).symm, h2.trans ht⟩

/-- Claim C2: every call to transfer, approve or transfer_from that returns
an error leaves the ledger exactly as it was: every balance, every
allowance and the total supply are unchanged. -/
theorem atomicity_on_failure (s : TokenState) (op : Op)
    (h : (opResult s op).2 ≠ none) :
    (∀ a, (opResult s op).1.balance_of a = s.balance_of a)
    ∧ (∀ o sp, (opResult s op).1.allowance o sp = s.allowance o sp)
    ∧ (opResult s op).1.total_supply = s.total_supply := by
  have heq := (opResult_cases s op).resolve_left h
  rw [heq]
  exact ⟨fun _ => rfl, fun _ _ => rfl, rfl⟩

/-- Concrete instance of atomicity on failure: a self-transfer fails and
changes no observable. -/
theorem atomicity_on_failure_witness :
    ((opResult (TokenState.new "a" 5) (Op.transfer "a" "a" 1)).2 ≠ none)
    ∧ (opResult (TokenState.new "a" 5) (Op.transfer "a" "a" 1)).1.balance_of "a"
        = (TokenState.new "a" 5).balance_of "a" :=
  ⟨by decide,
    (atomicity_on_failure (TokenState.new "a" 5) (Op.transfer "a" "a" 1)
      (by decide)).1 "a"⟩

/-- Claim C3: transfer checks self-transfer, zero amount, insufficient
balance and 64-bit overflow in that fixed order, the first failing check
deciding the returned error, and it errs exactly when one of those four
conditions holds. -/
theorem transfer_validation_order (s : TokenState) (f t : Address) (a : Balance) :
    (s.transfer f t a).2 =
      (if f = t then some TokenError.SelfTransfer
       else if a = 0 then some TokenError.ZeroAmount
       else if s.balance_of f < a then
         some (TokenError.InsufficientBalance a (s.balance_of f))
       else if U64_MAX < s.balance_of t + a then some TokenError.BalanceOverFlow
       else none)
    ∧ ((s.transfer f t a).2 ≠ none ↔
        f = t ∨ a = 0 ∨ s.balance_of f < a ∨ U64_MAX < s.balance_of t + a) := by
  have hc : (s.transfer f t a).2 =
      (if f = t then some TokenError.SelfTransfer
       else if a = 0 then some TokenError.ZeroAmount
       else if s.balance_of f < a then
         some (TokenError.InsufficientBalance a (s.balance_of f))
       else if U64_MAX < s.balance_of t + a then some TokenError.BalanceOverFlow
       else none) := by
    rw [transfer_eq]
    repeat' split
    all_goals rfl
  refine ⟨hc, ?_⟩
  rw [hc]
  repeat' split
  all_goals simp_all

theorem transfer_success_char (s : TokenState) (f t : Address) (a : Balance)
    (h : (s.transfer f t a).2 = none) :
    f ≠ t ∧ a ≠ 0 ∧ a ≤ s.balance_of f ∧ s.balance_of t + a ≤ U64_MAX
    ∧ (s.transfer f t a).1 =
        { s with
            balances :=
              mset (mset s.balances f (s.balance_of f - a)) t
                (s.balance_of t + a) } := by
  rw [transfer_eq] at h ⊢
  by_cases h1 : f = t
  · simp [h1] at h
  by_cases h2 : a = 0
  · simp [h1, h2] at h
  by_cases h3 : s.balance_of f < a
  · simp [h1, h2, h3] at h
  by_cases h4 : U64_MAX < s.balance_of t + a
  · simp [h1, h2, h3, h4] at h
  · simp only [if_neg h1, if_neg h2, if_neg h3, if_neg h4]
    exact ⟨h1, h2, Nat.not_lt.mp h3, Nat.not_lt.mp h4, by trivial⟩

theorem transfer_from_success_char (s : TokenState) (sp f t : Address)
    (a : Balance) (h : (s.transfer_from sp f t a).2 = none) :
    f ≠ t ∧ a ≠ 0 ∧ a ≤ s.allowance f sp ∧ a ≤ s.balance_of f
    ∧ s.balance_of t + a ≤ U64_MAX
    ∧ (s.transfer_from sp f t a).1 =
        { s with
            balances :=
              mset (mset s.balances f (s.balance_of f - a)) t
                (s.balance_of t + a)
            allowances := mset s.allowances (f, sp) (s.allowance f sp - a) } := by
  rw [transfer_from_eq] at h ⊢
  by_cases h1 : f = t
  · simp [h1] at h
  by_cases h2 : a = 0
  · simp [h1, h2] at h
  by_cases h3 : s.allowance f sp < a
  · simp [h1, h2, h3] at h
  by_cases h4 : s.balance_of f < a
  · simp [h1, h2, h3, h4] at h
  by_cases h5 : U64_MAX < s.balance_of t + a
  · simp [h1, h2, h3, h4, h5] at h
  · simp only [if_neg h1, if_neg h2, if_neg h3, if_neg h4, if_neg h5]
    exact ⟨h1, h2, Nat.not_lt.mp h3, Nat.not_lt.mp h4, Nat.not_lt.mp h5, by trivial⟩

/-- Claim C4: transfer_from checks self-transfer, zero amount, allowance,
balance and overflow in that order; in particular, when both the allowance
and the balance are too small, the reported error is the allowance one. -/
theorem transfer_from_validation_order (s : TokenState) (sp f t : Address)
    (a : Balance) :
    ((s.transfer_from sp f t a).2 =
      (if f = t then some TokenError.SelfTransfer
       else if a = 0 then some TokenError.ZeroAmount
       else if s.allowance f sp < a then
         some (TokenError.InsufficientAllowance a (s.allowance f sp))
       else if s.balance_of f < a then
         some (TokenError.InsufficientBalance a (s.balance_of f))
       else if U64_MAX < s.balance_of t + a then some TokenError.BalanceOverFlow
       else none))
    ∧ (f ≠ t → a ≠ 0 → s.allowance f sp < a → s.balance_of f < a →
        (s.transfer_from sp f t a).2
          = some (TokenError.InsufficientAllowance a (s.allowance f sp))) := by
  have hc : (s.transfer_from sp f t a).2 =
      (if f = t then some TokenError.SelfTransfer
       else if a = 0 then some TokenError.ZeroAmount
       else if s.allowance f sp < a then
         some (TokenError.InsufficientAllowance a (s.allowance f sp))
       else if s.balance_of f < a then
         some (TokenError.InsufficientBalance a (s.balance_of f))
       else if U64_MAX < s.balance_of t + a then some TokenError.BalanceOverFlow
       else none) := by
    rw [transfer_from_eq]
    repeat' split
    all_goals rfl
  refine ⟨hc, fun h1 h2 h3 _ => ?_⟩
  rw [hc, if_neg h1, if_neg h2, if_pos h3]

/-- Concrete instance for C4: with allowance 0 and balance 0 both below the
requested amount, the reported error is InsufficientAllowance. -/
theorem transfer_from_validation_order_witness :
    ("a" : Address) ≠ "c"
    ∧ (5 : Balance) ≠ 0
    ∧ (TokenState.new "a" 0).allowance "a" "b" < 5
    ∧ (TokenState.new "a" 0).balance_of "a" < 5
    ∧ ((TokenState.new "a" 0).transfer_from "b" "a" "c" 5).2
        = some (TokenError.InsufficientAllowance 5
            ((TokenState.new "a" 0).allowance "a" "b")) :=
  ⟨by decide, by decide, by decide, by decide,
    (transfer_from_validation_order (TokenState.new "a" 0) "b" "a" "c" 5).2
      (by decide) (by decide) (by decide) (by decide)⟩

/-- Claim C5: a successful transfer_from decrements the (owner, spender)
allowance by exactly the transferred amount, which never underflows
because the allowance check already bounded it, and leaves every other
allowance pair unchanged. -/
theorem transfer_from_allowance_exact (s : TokenState) (sp o t : Address)
    (x : Balance) (h : (s.transfer_from sp o t x).2 = none) :
    x ≤ s.allowance o sp
    ∧ (s.transfer_from sp o t x).1.allowance o sp = s.allowance o sp - x
    ∧ ∀ o2 s2, (o2, s2) ≠ (o, sp) →
        (s.transfer_from sp o t x).1.allowance o2 s2 = s.allowance o2 s2 := by
  obtain ⟨-, -, hx, -, -, hfst⟩ := transfer_from_success_char s sp o t x h
  refine ⟨hx, ?_, fun o2 s2 hne => ?_⟩
  · rw [hfst]
    exact mgetD_mset_self s.allowances (o, sp) (s.allowance o sp - x)
  · rw [hfst]
    exact mgetD_mset_ne s.allowances (o, sp) (o2, s2) (s.allowance o sp - x) hne

/-- Concrete instance for C5: after approving 100 and delegated-moving 50,
the allowance is 50 and an unrelated pair is still 0. -/
theorem transfer_from_allowance_exact_witness :
    ((((TokenState.new "a" 1000).approve "a" "b" 100).1.transfer_from
        "b" "a" "c" 50).2 = none)
    ∧ (((TokenState.new "a" 1000).approve "a" "b" 100).1.transfer_from
        "b" "a" "c" 50).1.allowance "a" "b" = 50
    ∧ (((TokenState.new "a" 1000).approve "a" "b" 100).1.transfer_from
        "b" "a" "c" 50).1.allowance "b" "a" = 0 := by
  refine ⟨by decide, ?_, ?_⟩
  · have h := transfer_from_allowance_exact
      ((TokenState.new "a" 1000).approve "a" "b" 100).1 "b" "a" "c" 50 (by decide)
    rw [h.2.1]
    decide
  · have h := transfer_from_allowance_exact
      ((TokenState.new "a" 1000).approve "a" "b" 100).1 "b" "a" "c" 50 (by decide)
    rw [h.2.2 "b" "a" (by decide)]
    decide

/-- Claim C6: a successful transfer debits the sender and credits the
recipient by exactly the amount, touches no other balance, leaves the
allowances map unchanged, and leaves the total supply unchanged. -/
theorem transfer_success_effect (s : TokenState) (f t : Address) (a : Balance)
    (h : (s.transfer f t a).2 = none) :
    a ≤ s.balance_of f
    ∧ (s.transfer f t a).1.balance_of f = s.balance_of f - a
    ∧ (s.transfer f t a).1.balance_of t = s.balance_of t + a
    ∧ (∀ c, c ≠ f → c ≠ t → (s.transfer f t a).1.balance_of c = s.balance_of c)
    ∧ (s.transfer f t a).1.allowances = s.allowances
    ∧ (s.transfer f t a).1.total_supply = s.total_supply := by
  obtain ⟨hft, -, ha, -, hfst⟩ := transfer_success_char s f t a h
  refine ⟨ha, ?_, ?_, fun c hcf hct => ?_, ?_, ?_⟩
  · rw [hfst]
    show mgetD (mset (mset s.balances f (s.balance_of f - a)) t
      (s.balance_of t + a)) f = _
    rw [mgetD_mset_ne _ t f _ hft]
    exact mgetD_mset_self s.balances f (s.balance_of f - a)
  · rw [hfst]
    exact mgetD_mset_self (mset s.balances f (s.balance_of f - a)) t
      (s.balance_of t + a)
  · rw [hfst]
    show mgetD (mset (mset s.balances f (s.balance_of f - a)) t
      (s.balance_of t + a)) c = _
    rw [mgetD_mset_ne _ t c _ hct, mgetD_mset_ne _ f c _ hcf]
    rfl
  · rw [hfst]
  · rw [hfst]

/-- Concrete instance for C6: moving 100 out of 1000 leaves 900 and 100 and
an untouched third address at 0, with the supply still 1000. -/
theorem transfer_success_effect_witness :
    (((TokenState.new "a" 1000).transfer "a" "b" 100).2 = none)
    ∧ ((TokenState.new "a" 1000).transfer "a" "b" 100).1.balance_of "a" = 900
    ∧ ((TokenState.new "a" 1000).transfer "a" "b" 100).1.balance_of "b" = 100
    ∧ ((TokenState.new "a" 1000).transfer "a" "b" 100).1.balance_of "c" = 0
    ∧ ((TokenState.new "a" 1000).transfer "a" "b" 100).1.total_supply = 1000 := by
  have h := transfer_success_effect (TokenState.new "a" 1000) "a" "b" 100 (by decide)
  refine ⟨by decide, ?_, ?_, ?_, ?_⟩
  · rw [h.2.1]
    decide
  · rw [h.2.2.1]
    decide
  · rw [h.2.2.2.1 "c" (by decide) (by decide)]
    decide
  · rw [h.2.2.2.2.2]
    decide

/-- Claim C7: approve rejects owner = spender and changes nothing; for
distinct owner and spender it always succeeds, including amount zero, and
unconditionally overwrites the allowance, so a second approval of the same
pair replaces the first (last write wins). -/
theorem approve_last_write_wins (s : TokenState) (o sp : Address) (x y : Balance) :
    (o = sp → s.approve o sp x = (s, some TokenError.SelfApproval))
    ∧ (o ≠ sp →
        (s.approve o sp x).2 = none
        ∧ (s.approve o sp x).1.allowance o sp = x
        ∧ ((s.approve o sp x).1.approve o sp y).1.allowance o sp = y) := by
  constructor
  · intro h
    rw [approve_eq, if_pos h]
  · intro h
    rw [approve_eq, if_neg h]
    refine ⟨rfl, mgetD_mset_self s.allowances (o, sp) x, ?_⟩
    rw [approve_eq, if_neg h]
    exact mgetD_mset_self (mset s.allowances (o, sp) x) (o, sp) y

/-- Concrete instance for C7: a self-approval fails unchanged, and two
approvals of the same pair leave the second amount. -/
theorem approve_last_write_wins_witness :
    ((TokenState.new "a" 5).approve "a" "a" 3
        = (TokenState.new "a" 5, some TokenError.SelfApproval))
    ∧ (((TokenState.new "a" 5).approve "a" "b" 3).1.approve "a" "b" 7).1.allowance
        "a" "b" = 7 :=
  ⟨(approve_last_write_wins (TokenState.new "a" 5) "a" "a" 3 7).1 rfl,
    ((approve_last_write_wins (TokenState.new "a" 5) "a" "b" 3 7).2
      (by decide)).2.2⟩

/-- Claim C8: balance and allowance lookups return zero for absent entries
and never fail, and allowances are directional: approving the pair (a, b)
leaves the reverse pair (b, a) at its prior value. -/
theorem zero_default_lookups (s : TokenState) (a o sp b : Address) (x : Balance) :
    (mlookup s.balances a = none → s.balance_of a = 0)
    ∧ (mlookup s.allowances (o, sp) = none → s.allowance o sp = 0)
    ∧ (a ≠ b → (s.approve a b x).1.allowance b a = s.allowance b a) := by
  refine ⟨fun h => ?_, fun h => ?_, fun h => ?_⟩
  · simp [TokenState.balance_of, mgetD, h]
  · simp [TokenState.allowance, mgetD, h]
  · rw [approve_eq, if_neg h]
    show mgetD (mset s.allowances (a, b) x) (b, a) = _
    rw [mgetD_mset_ne s.allowances (a, b) (b, a) x
      (fun hh => h (congrArg Prod.snd hh))]
    rfl

/-- Concrete instance for C8: an address never credited reads balance 0, a
pair never approved reads allowance 0, and approving (a, b) leaves the
reverse allowance (b, a) at its prior value. -/
theorem zero_default_lookups_witness :
    ((TokenState.new "a" 5).balance_of "b" = 0)
    ∧ ((TokenState.new "a" 5).allowance "a" "b" = 0)
    ∧ (((TokenState.new "a" 5).approve "a" "b" 7).1.allowance "b" "a"
        = (TokenState.new "a" 5).allowance "b" "a") :=
  ⟨(zero_default_lookups (TokenState.new "a" 5) "b" "a" "b" "a" 7).1 (by decide),
    (zero_default_lookups (TokenState.new "a" 5) "b" "a" "b" "a" 7).2.1
      (by decide),
    (zero_default_lookups (TokenState.new "a" 5) "b" "a" "b" "a" 7).2.2
      (by decide)⟩

/-! The reachable-state invariants behind the two implicit claims. -/


theorem transfer_allowances_unchanged (s : TokenState) (f t : Address)
    (a : Balance) : (s.transfer f t a).1.allowances = s.allowances := by
  rw [transfer_eq]
  repeat' split
  all_goals rfl

theorem applyOp_selfAllowZero (s : TokenState) (op : Op) (h : SelfAllowZero s) :
    SelfAllowZero (applyOp s op) := by
  intro x
  cases op with
  | transfer f t a =>
      show (s.transfer f t a).1.allowance x x = 0
      unfold TokenState.allowance
      rw [transfer_allowances_unchanged]
      exact h x
  | approve o sp a =>
      show (s.approve o sp a).1.allowance x x = 0
      rw [approve_eq]
      by_cases ho : o = sp
      · rw [if_pos ho]
        exact h x
      · rw [if_neg ho]
        show mgetD (mset s.allowances (o, sp) a) (x, x) = 0
        rw [mgetD_mset_ne s.allowances (o, sp) (x, x) a
          (fun hh => ho ((congrArg Prod.fst hh).symm.trans (congrArg Prod.snd hh)))]
        exact h x
  | transfer_from sp f t a =>
      show (s.transfer_from sp f t a).1.allowance x x = 0
      rcases eq_or_ne (s.transfer_from sp f t a).2 none with hok | herr
      · obtain ⟨-, h2, h3, -, -, hfst⟩ := transfer_from_success_char s sp f t a hok
        have hfsp : f ≠ sp := by
          intro he
          rw [← he, h f] at h3
          exact h2 (Nat.le_zero.mp h3)
        rw [hfst]
        show mgetD (mset s.allowances (f, sp) (s.allowance f sp - a)) (x, x) = 0
        rw [mgetD_mset_ne s.allowances (f, sp) (x, x) (s.allowance f sp - a)
          (fun hh => hfsp ((congrArg Prod.fst hh).symm.trans (congrArg Prod.snd hh)))]
        exact h x
      · have heq : (s.transfer_from sp f t a).1 = s :=
          (opResult_cases s (Op.transfer_from sp f t a)).resolve_left herr
        rw [heq]
        exact h x

theorem run_selfAllowZero (s : TokenState) (ops : List Op) (h : SelfAllowZero s) :
    SelfAllowZero (run s ops) := by
  induction ops generalizing s with
  | nil => exact h
  | cons op rest ih =>
      simp only [run, List.foldl_cons]
      exact ih (applyOp s op) (applyOp_selfAllowZero s op h)

/-- Claim C9: in every state reachable from new via the public operations,
every self-allowance is zero, so a delegated transfer whose spender is the
owner (with a distinct recipient and a nonzero amount) always fails with
InsufficientAllowance for the requested amount against an available 0. -/
theorem self_allowance_zero (c : Address) (i : Balance) (ops : List Op)
    (a f t : Address) (x : Balance) :
    (run (TokenState.new c i) ops).allowance a a = 0
    ∧ (f ≠ t → x ≠ 0 →
        ((run (TokenState.new c i) ops).transfer_from f f t x).2
          = some (TokenError.InsufficientAllowance x 0)) := by
  have hinv : SelfAllowZero (run (TokenState.new c i) ops) :=
    run_selfAllowZero (TokenState.new c i) ops (fun _ => rfl)
  refine ⟨hinv a, fun hft hx => ?_⟩
  rw [transfer_from_eq, if_neg hft, if_neg hx, hinv f,
    if_pos (Nat.pos_of_ne_zero hx)]

/-- Concrete instance for C9: on a fresh ledger, the owner trying to move
their own funds through the delegated path is rejected on allowance. -/
theorem self_allowance_zero_witness :
    ((run (TokenState.new "a" 5) []).allowance "b" "b" = 0)
    ∧ ((run (TokenState.new "a" 5) []).transfer_from "a" "a" "b" 3).2
        = some (TokenError.InsufficientAllowance 3 0) :=
  ⟨(self_allowance_zero "a" 5 [] "b" "a" "b" 3).1,
    (self_allowance_zero "a" 5 [] "b" "a" "b" 3).2 (by decide) (by decide)⟩

theorem no_overflow_of_sum_bound (s : TokenState)
    (hs : msum s.balances ≤ U64_MAX) (sp f t : Address) (a : Balance) :
    (s.transfer f t a).2 ≠ some TokenError.BalanceOverFlow
    ∧ (s.transfer_from sp f t a).2 ≠ some TokenError.BalanceOverFlow := by
  have key : ∀ g u : Address, g ≠ u → ¬(s.balance_of g < a) →
      ¬(U64_MAX < s.balance_of u + a) := by
    intro g u hgu hga
    have hga2 : a ≤ mgetD s.balances g := Nat.not_lt.mp hga
    have hp := mgetD_pair_le_msum s.balances u g (fun hh => hgu hh.symm)
    show ¬(U64_MAX < mgetD s.balances u + a)
    exact Nat.not_lt.mpr
      (le_trans (le_trans (Nat.add_le_add_left hga2 _) hp) hs)
  constructor
  · rw [transfer_eq]
    by_cases c1 : f = t
    · simp [c1]
    by_cases c2 : a = 0
    · simp [c1, c2]
    by_cases c3 : s.balance_of f < a
    · simp [c1, c2, c3]
    · simp [c1, c2, c3, key f t c1 c3]
  · rw [transfer_from_eq]
    by_cases c1 : f = t
    · simp [c1]
    by_cases c2 : a = 0
    · simp [c1, c2]
    by_cases c3 : s.allowance f sp < a
    · simp [c1, c2, c3]
    by_cases c4 : s.balance_of f < a
    · simp [c1, c2, c3, c4]
    · simp [c1, c2, c3, c4, key f t c1 c4]

/-- Claim C10: on every state reachable from new with an initial supply
that fits in the 64-bit Balance width, the overflow branch is dead code:
neither transfer nor transfer_from ever returns BalanceOverFlow. -/
theorem balance_overflow_unreachable (c : Address) (i : Balance) (ops : List Op)
    (sp f t : Address) (a : Balance) (hi : i ≤ U64_MAX) :
    ((run (TokenState.new c i) ops).transfer f t a).2
        ≠ some TokenError.BalanceOverFlow
    ∧ ((run (TokenState.new c i) ops).transfer_from sp f t a).2
        ≠ some TokenError.BalanceOverFlow := by
  obtain ⟨h1, -⟩ := run_msum (TokenState.new c i) ops
  have hs : msum (run (TokenState.new c i) ops).balances ≤ U64_MAX := by
    rw [h1, msum_new]
    exact hi
  exact no_overflow_of_sum_bound (run (TokenState.new c i) ops) hs sp f t a

/-- Concrete instance for C10: after a transfer on a small fresh ledger,
another transfer reports insufficient balance rather than overflow. -/
theorem balance_overflow_unreachable_witness :
    ((run (TokenState.new "a" 5) [Op.transfer "a" "b" 2]).transfer "b" "c" 9).2
        ≠ some TokenError.BalanceOverFlow :=
  (balance_overflow_unreachable "a" 5 [Op.transfer "a" "b" 2] "d" "b" "c" 9
    (by decide)).1

